import Mathlib

/-!
Shallow embedding of the swiftwire length-prefixed TCP protocol engine
(files `include/swiftwire/protocol.hpp`, `src/server.cpp`, `src/client.cpp`).

Bytes are modelled as `Nat` values; every place the C++ code truncates to
`uint8_t` (a cast or a `& 0xFF` mask) is modelled by an explicit `% 256`,
and shifts appear as `<<<`/`>>>`/`|||` exactly as the source writes them.
Sockets and timers are external resources: the model records the socket
operations a code path performs and drives the completion-callback chains
with explicit events, one event per callback execution of the io_context.
Wall-clock timing itself is not modelled; a timer expiry is just an event
that may arrive at any point, which over-approximates the real schedules.
-/

namespace Swiftwire

/-! ## Wire codec (`protocol.hpp`) -/

/-- Message type `proto::MSG_HELLO`. -/
def MSG_HELLO : Nat := 0x01

/-- Message type `proto::MSG_HELLO_ACK`. -/
def MSG_HELLO_ACK : Nat := 0x81

/-- Encoder `proto::write_u32be`: the four big-endian bytes of `v`,
`p[i] = (v >> (24 - 8*i)) & 0xFF`. -/
def write_u32be (v : Nat) : List Nat :=
  [(v >>> 24) % 256, (v >>> 16) % 256, (v >>> 8) % 256, v % 256]

/-- Decoder `proto::read_u32be`: `(u8 p0 << 24) | (u8 p1 << 16) | (u8 p2 << 8) | u8 p3`.
The `uint8_t` casts on the buffer bytes are the `% 256`. -/
def read_u32be (p : List Nat) : Nat :=
  ((p.getD 0 0 % 256) <<< 24) ||| ((p.getD 1 0 % 256) <<< 16) |||
    ((p.getD 2 0 % 256) <<< 8) ||| (p.getD 3 0 % 256)

/-- Encoder `proto::write_u64be`: the loop `for i = 7..0, p[7-i] = (v >> i*8) & 0xFF`
unrolled, so `p[j] = (v >> (7-j)*8) & 0xFF`. -/
def write_u64be (v : Nat) : List Nat :=
  [(v >>> 56) % 256, (v >>> 48) % 256, (v >>> 40) % 256, (v >>> 32) % 256,
   (v >>> 24) % 256, (v >>> 16) % 256, (v >>> 8) % 256, v % 256]

/-- Decoder `proto::read_u64be`: the loop `for i = 0..7, v = (v << 8) | u8 p[i]`
as a fold over the first eight buffer bytes. -/
def read_u64be (p : List Nat) : Nat :=
  (p.take 8).foldl (fun v b => (v <<< 8) ||| (b % 256)) 0

/-! ## Server session (`server.cpp`, `server.hpp`)

`ServerConfig` keeps the fields the session logic reads. The `idle_timeout`
duration is real time and is left out; the idle timer itself shows up as the
`timedOut` close event below. -/

structure ServerConfig where
  threads : Nat
  max_frame : Nat
  max_write_queue_bytes : Nat
  tcp_nodelay : Bool
  deriving DecidableEq

/-- The `boost::system::error_code` values the session code produces. -/
inductive ECode
  | ioError       -- any error delivered by a failed read/write
  | messageSize   -- boost::asio::error::message_size (bad length prefix)
  | noBufferSpace -- boost::asio::error::no_buffer_space (write-queue overflow)
  | timedOut      -- boost::asio::error::timed_out (idle timer fired)
  deriving DecidableEq

/-- Socket/timer operations performed on the owned socket, in program order. -/
inductive SockEffect
  | cancelTimer
  | shutdownBoth
  | closeSocket
  deriving DecidableEq

/-- Mutable per-connection state of `AsyncServer::Session`: the outbound
write queue (`write_queue_`, the in-flight head included), the running byte
count (`pending_bytes_`), the close flag (`closed_`), the error code the
session closed with, and the log of socket operations performed. -/
structure Session where
  writeQueue : List (List Nat)
  pendingBytes : Nat
  closed : Bool
  closeCode : Option ECode
  effects : List SockEffect
  deriving DecidableEq

/-- State right after `Session::start()`: empty queue, zero pending bytes. -/
def initSession : Session :=
  { writeQueue := []
    pendingBytes := 0
    closed := false
    closeCode := none
    effects := [] }

/-- Close path `Session::fail_and_close`: `closed_.exchange(true)` guards the whole body,
so on an already-closed session nothing happens; otherwise the timer is
cancelled and the socket is shut down in both directions and closed. -/
def fail_and_close (s : Session) (e : ECode) : Session :=
  if s.closed then s
  else
    { s with
      closed := true
      closeCode := some e
      effects := s.effects ++
        [SockEffect.cancelTimer, SockEffect.shutdownBoth, SockEffect.closeSocket] }

/-- Queueing `Session::enqueue_write`: `pending_bytes_ += buf->size()` happens first;
if the new total exceeds `max_write_queue_bytes` the session closes with
`no_buffer_space`, otherwise the buffer is appended to the queue (and a write
is started if none was in flight). -/
def enqueue_write (cfg : ServerConfig) (s : Session) (buf : List Nat) : Session :=
  let pb := s.pendingBytes + buf.length
  if cfg.max_write_queue_bytes < pb then
    fail_and_close { s with pendingBytes := pb } ECode.noBufferSpace
  else
    { s with pendingBytes := pb, writeQueue := s.writeQueue ++ [buf] }

/-- Reply builder `Session::send_hello_ack`: the 14-byte buffer
`[4B len=10][1B type=0x81][8B id][1B status]`. -/
def send_hello_ack_buf (id status : Nat) : List Nat :=
  write_u32be 10 ++ [MSG_HELLO_ACK] ++ write_u64be id ++ [status % 256]

/-- Dispatch `Session::handle_message`: dispatch on the first body byte.  `HELLO`
with at least 9 body bytes answers with a status-0 HELLO_ACK echoing the id
decoded from bytes 1..8; any other type with at least 9 body bytes answers
with a status-1 HELLO_ACK built the same way; shorter bodies are ignored. -/
def handle_message (cfg : ServerConfig) (s : Session) (body : List Nat) : Session :=
  if body.isEmpty then s
  else
    let msgType := body.headD 0 % 256
    if msgType = MSG_HELLO then
      if body.length < 1 + 8 then s
      else enqueue_write cfg s (send_hello_ack_buf (read_u64be (body.drop 1)) 0)
    else
      if 1 + 8 ≤ body.length then
        enqueue_write cfg s (send_hello_ack_buf (read_u64be (body.drop 1)) 1)
      else s

/-- What the session reads next after a completion handler returns. -/
inductive NextRead
  | halt                -- the session closed, no further read is issued
  | bodyRead (n : Nat)  -- `read_body()`: an async_read of exactly n bytes
  | lenRead             -- `read_len()`: an async_read of the 4-byte prefix
  deriving DecidableEq

/-- Completion handler of the 4-byte length read in `Session::read_len`:
on error close; decode the prefix; `blen == 0 || blen > max_frame` closes
with `message_size`; otherwise `body_` is resized to `blen` and `read_body`
reads exactly that many bytes. -/
def read_len_done (cfg : ServerConfig) (s : Session) (ok : Bool)
    (lenbuf : List Nat) : Session × NextRead :=
  if ok then
    let blen := read_u32be lenbuf
    if blen = 0 ∨ cfg.max_frame < blen then
      (fail_and_close s ECode.messageSize, NextRead.halt)
    else
      (s, NextRead.bodyRead blen)
  else (fail_and_close s ECode.ioError, NextRead.halt)

/-- Completion handler of the body read in `Session::read_body`: on error
close; otherwise dispatch the message and loop back to `read_len()`. -/
def body_done (cfg : ServerConfig) (s : Session) (ok : Bool)
    (body : List Nat) : Session × NextRead :=
  if ok then (handle_message cfg s body, NextRead.lenRead)
  else (fail_and_close s ECode.ioError, NextRead.halt)

/-- Completion handler of `async_write` in `Session::do_write`:
`pending_bytes_ -= min(n, front->size())`, pop the head, close on error,
otherwise keep writing the next head if any.  A write completion only ever
runs with a nonempty queue (the write it finishes is the head). -/
def write_done (s : Session) (ok : Bool) (n : Nat) : Session :=
  match s.writeQueue with
  | [] => s
  | front :: rest =>
    let s1 :=
      { s with
        pendingBytes := s.pendingBytes - min n front.length
        writeQueue := rest }
    if ok then s1 else fail_and_close s1 ECode.ioError

/-- Total size in bytes of the queued buffers. -/
def sumSizes (q : List (List Nat)) : Nat := (q.map List.length).sum

/-- The session states reachable from `start()` under the completion events of the io_context.  A write completion requires a write in flight (nonempty
queue) and, when it reports success, `boost::asio::async_write` has
transferred the whole buffer. -/
inductive SReach (cfg : ServerConfig) : Session → Prop
  | init : SReach cfg initSession
  | lenStep (s : Session) (ok : Bool) (lenbuf : List Nat) :
      SReach cfg s → SReach cfg (read_len_done cfg s ok lenbuf).1
  | bodyStep (s : Session) (ok : Bool) (body : List Nat) :
      SReach cfg s → SReach cfg (body_done cfg s ok body).1
  | writeStep (s : Session) (ok : Bool) (n : Nat)
      (hq : s.writeQueue ≠ [])
      (hn : ok = true → n = (s.writeQueue.headD []).length) :
      SReach cfg s → SReach cfg (write_done s ok n)
  | timerStep (s : Session) :
      SReach cfg s → SReach cfg (fail_and_close s ECode.timedOut)

/-! ## Client (`client.cpp`, `client.hpp`) -/

/-- The socket resources `AsyncClient::close` acts on. -/
structure ClientConn where
  timerArmed : Bool
  socketOpen : Bool
  deriving DecidableEq

/-- Close path `AsyncClient::close`: cancel the timer, shut down both directions and
close the socket.  Both socket calls write their error code into a local
`ec` that is never examined, so the call surfaces no error; the second
component is that surfaced error. -/
def client_close (_c : ClientConn) : ClientConn × Option ECode :=
  ({ timerArmed := false, socketOpen := false }, none)

/-- Results `AsyncClient::async_connect` can hand to its handler. -/
inductive ConnResult
  | timedOut      -- handler(timed_out) from the timer lambda
  | resolveFailed -- handler(ec) from the resolve callback
  | connectFailed -- handler(ec2), ec2 an error
  | connected     -- handler(ec2), ec2 success
  deriving DecidableEq

/-- One `async_connect` call in flight: the `done` flag, the handler
invocations so far, which asynchronous operations are outstanding, and which
cancellations the code has issued. -/
structure ConnSt where
  doneFlag : Bool
  calls : List ConnResult
  timerPending : Bool
  resolvePending : Bool
  connectPending : Bool
  socketCancelled : Bool
  resolverCancelled : Bool
  deriving DecidableEq

/-- State at the return of `async_connect`: the deadline timer is armed and
the resolve has been issued. -/
def connInit : ConnSt :=
  { doneFlag := false
    calls := []
    timerPending := true
    resolvePending := true
    connectPending := false
    socketCancelled := false
    resolverCancelled := false }

/-- One completion callback executing on the io_context.  `timerFired true`
is the wait ending with `operation_aborted` (the timer was cancelled). -/
inductive ConnEv
  | timerFired (aborted : Bool)
  | resolveDone (ok : Bool)
  | connectDone (ok : Bool)

/-- The three callbacks of `AsyncClient::async_connect`, exactly as written:
the timer lambda returns on `operation_aborted`, then on `*done`; otherwise
it sets `*done`, cancels and closes the socket and reports `timed_out`.
The resolve callback returns on `*done`, reports a resolve error, or issues
`async_connect`; the connect callback returns on `*done` and otherwise
reports its outcome.  Note the timer lambda never touches `resolver_`. -/
def connStep (ev : ConnEv) (st : ConnSt) : ConnSt :=
  match ev with
  | ConnEv.timerFired aborted =>
    let st := { st with timerPending := false }
    if aborted then st
    else if st.doneFlag then st
    else
      { st with
        doneFlag := true
        socketCancelled := true
        calls := st.calls ++ [ConnResult.timedOut] }
  | ConnEv.resolveDone ok =>
    let st := { st with resolvePending := false }
    if st.doneFlag then st
    else if ok then { st with connectPending := true }
    else { st with doneFlag := true, calls := st.calls ++ [ConnResult.resolveFailed] }
  | ConnEv.connectDone ok =>
    let st := { st with connectPending := false }
    if st.doneFlag then st
    else
      { st with
        doneFlag := true
        calls := st.calls ++
          [if ok then ConnResult.connected else ConnResult.connectFailed] }

/-- Interleavings of one `async_connect` call: any pending completion may
fire next; a callback fires only if its operation is outstanding. -/
inductive ConnReach : ConnSt → Prop
  | init : ConnReach connInit
  | timer (st : ConnSt) (a : Bool) :
      ConnReach st → st.timerPending = true → ConnReach (connStep (ConnEv.timerFired a) st)
  | resolve (st : ConnSt) (ok : Bool) :
      ConnReach st → st.resolvePending = true → ConnReach (connStep (ConnEv.resolveDone ok) st)
  | connect (st : ConnSt) (ok : Bool) :
      ConnReach st → st.connectPending = true → ConnReach (connStep (ConnEv.connectDone ok) st)

/-- Results `AsyncClient::async_handshake` can hand to its handler. -/
inductive HsResult
  | timedOut    -- handler(timed_out, 0, 0)
  | writeFailed -- handler(ec, 0, 0) from the request write
  | readFailed  -- handler(ec2/ec3, 0, 0) from a failed read
  | badLength   -- handler(invalid_argument): blen < 10 or blen > 1 MiB
  | shortBody   -- handler(invalid_argument): body shorter than 10 bytes
  | badType     -- handler(fault): first body byte is not HELLO_ACK
  | idMismatch  -- handler(fault): echoed id differs from the one sent
  | accepted (id status : Nat) -- handler({}, echoed, status)
  deriving DecidableEq

/-- The checks of the final body callback of `async_handshake`, in source
order, on a successfully read body. -/
def hsBodyOutcome (cid : Nat) (body : List Nat) : HsResult :=
  if body.length < 1 + 8 + 1 then HsResult.shortBody
  else if ¬ body.headD 0 % 256 = MSG_HELLO_ACK then HsResult.badType
  else if ¬ read_u64be (body.drop 1) = cid then HsResult.idMismatch
  else HsResult.accepted (read_u64be (body.drop 1)) (body.getD (1 + 8) 0 % 256)

/-- One `async_handshake` call in flight. -/
structure HsSt where
  doneFlag : Bool
  calls : List HsResult
  timerPending : Bool
  writePending : Bool
  lenPending : Bool
  bodyPending : Bool
  socketCancelled : Bool
  deriving DecidableEq

/-- State at the return of `async_handshake`: the deadline timer is armed
and the HELLO frame write has been issued. -/
def hsInit : HsSt :=
  { doneFlag := false
    calls := []
    timerPending := true
    writePending := true
    lenPending := false
    bodyPending := false
    socketCancelled := false }

/-- One completion callback of `async_handshake` executing. -/
inductive HsEv
  | timerFired (aborted : Bool)
  | writeDone (ok : Bool)
  | lenDone (ok : Bool) (lenbuf : List Nat)
  | bodyDone (ok : Bool) (body : List Nat)

/-- The callbacks of `AsyncClient::async_handshake`, exactly as written.
Every callback first returns on `*done`.  The timer lambda cancels the
socket and reports `timed_out`.  The write callback chains into the 4-byte
length read; the length callback validates `10 ≤ blen ≤ 1 MiB` and chains
into the body read; the body callback sets `*done` unconditionally and
reports exactly one result. -/
def hsStep (cid : Nat) (ev : HsEv) (st : HsSt) : HsSt :=
  match ev with
  | HsEv.timerFired aborted =>
    let st := { st with timerPending := false }
    if aborted then st
    else if st.doneFlag then st
    else
      { st with
        doneFlag := true
        socketCancelled := true
        calls := st.calls ++ [HsResult.timedOut] }
  | HsEv.writeDone ok =>
    let st := { st with writePending := false }
    if st.doneFlag then st
    else if ok then { st with lenPending := true }
    else { st with doneFlag := true, calls := st.calls ++ [HsResult.writeFailed] }
  | HsEv.lenDone ok lenbuf =>
    let st := { st with lenPending := false }
    if st.doneFlag then st
    else if ok then
      let blen := read_u32be lenbuf
      if blen < 1 + 8 + 1 ∨ (1 <<< 20 : Nat) < blen then
        { st with doneFlag := true, calls := st.calls ++ [HsResult.badLength] }
      else { st with bodyPending := true }
    else { st with doneFlag := true, calls := st.calls ++ [HsResult.readFailed] }
  | HsEv.bodyDone ok body =>
    let st := { st with bodyPending := false }
    if st.doneFlag then st
    else if ok then
      { st with doneFlag := true, calls := st.calls ++ [hsBodyOutcome cid body] }
    else { st with doneFlag := true, calls := st.calls ++ [HsResult.readFailed] }

/-- Interleavings of one `async_handshake` call. -/
inductive HsReach (cid : Nat) : HsSt → Prop
  | init : HsReach cid hsInit
  | timer (st : HsSt) (a : Bool) :
      HsReach cid st → st.timerPending = true →
      HsReach cid (hsStep cid (HsEv.timerFired a) st)
  | write (st : HsSt) (ok : Bool) :
      HsReach cid st → st.writePending = true →
      HsReach cid (hsStep cid (HsEv.writeDone ok) st)
  | len (st : HsSt) (ok : Bool) (lenbuf : List Nat) :
      HsReach cid st → st.lenPending = true →
      HsReach cid (hsStep cid (HsEv.lenDone ok lenbuf) st)
  | body (st : HsSt) (ok : Bool) (b : List Nat) :
      HsReach cid st → st.bodyPending = true →
      HsReach cid (hsStep cid (HsEv.bodyDone ok b) st)

end Swiftwire

/-! ## Lemmas and claim theorems -/

namespace Swiftwire

/-- Or-ing a value shifted left by `n` with a value below `2^n` is addition. -/
lemma shiftLeft_lor_eq_add (x y n : Nat) (h : y < 2 ^ n) :
    x <<< n ||| y = x * 2 ^ n + y := by
  rw [Nat.shiftLeft_eq, Nat.mul_comm, Nat.mul_add_lt_is_or h, Nat.mul_comm]

/-- Specialisation of `shiftLeft_lor_eq_add` whose right operand is visibly
reduced mod 256, so it can drive `simp`. -/
lemma shiftLeft8_lor_mod (x y : Nat) : x <<< 8 ||| y % 256 = x * 256 + y % 256 := by
  have := shiftLeft_lor_eq_add x (y % 256) 8 (by omega)
  simpa using this

lemma mod256_mod256 (a : Nat) : a % 256 % 256 = a % 256 :=
  Nat.mod_mod_of_dvd a dvd_rfl

lemma read_u32be_write_u32be (v : Nat) (hv : v < 2 ^ 32) :
    read_u32be (write_u32be v) = v := by
  unfold read_u32be write_u32be
  simp only [List.getD, List.get?, Option.getD_some, Nat.shiftRight_eq_div_pow,
    mod256_mod256]
  rw [Nat.lor_assoc, Nat.lor_assoc]
  rw [shiftLeft_lor_eq_add (v / 2 ^ 8 % 256) (v % 256) 8 (by omega)]
  rw [shiftLeft_lor_eq_add (v / 2 ^ 16 % 256)
        (v / 2 ^ 8 % 256 * 2 ^ 8 + v % 256) 16 (by omega)]
  rw [shiftLeft_lor_eq_add (v / 2 ^ 24 % 256)
        (v / 2 ^ 16 % 256 * 2 ^ 16 + (v / 2 ^ 8 % 256 * 2 ^ 8 + v % 256)) 24 (by omega)]
  omega

lemma read_u64be_write_u64be (v : Nat) (hv : v < 2 ^ 64) :
    read_u64be (write_u64be v) = v := by
  unfold read_u64be write_u64be
  simp only [List.take, List.foldl, Nat.shiftRight_eq_div_pow, mod256_mod256,
    Nat.zero_shiftLeft, Nat.zero_or]
  simp only [shiftLeft8_lor_mod]
  omega

/-! ### Dispatch lemmas -/

lemma isEmpty_false_of_nine_le (body : List Nat) (h9 : 9 ≤ body.length) :
    body.isEmpty = false := by
  cases body with
  | nil => simp at h9
  | cons a l => rfl

lemma handle_message_short (cfg : ServerConfig) (s : Session) (body : List Nat)
    (h : body.length < 9) : handle_message cfg s body = s := by
  have h1 : body.length < 1 + 8 := by omega
  have h2 : ¬ (1 + 8 ≤ body.length) := by omega
  simp [handle_message, h1, h2]

lemma handle_message_hello (cfg : ServerConfig) (s : Session) (body : List Nat)
    (h9 : 9 ≤ body.length) (hty : body.headD 0 % 256 = MSG_HELLO) :
    handle_message cfg s body
      = enqueue_write cfg s (send_hello_ack_buf (read_u64be (body.drop 1)) 0) := by
  have he := isEmpty_false_of_nine_le body h9
  have h1 : ¬ (body.length < 1 + 8) := by omega
  rw [List.headD_eq_head?_getD] at hty
  simp [handle_message, he, hty, h1]

lemma handle_message_other (cfg : ServerConfig) (s : Session) (body : List Nat)
    (h9 : 9 ≤ body.length) (hty : ¬ body.headD 0 % 256 = MSG_HELLO) :
    handle_message cfg s body
      = enqueue_write cfg s (send_hello_ack_buf (read_u64be (body.drop 1)) 1) := by
  have he := isEmpty_false_of_nine_le body h9
  have h1 : 1 + 8 ≤ body.length := by omega
  rw [List.headD_eq_head?_getD] at hty
  simp [handle_message, he, hty, h1]

/-! ### Close and queue lemmas -/

lemma fail_and_close_isClosed (s : Session) (e : ECode) :
    (fail_and_close s e).closed = true := by
  unfold fail_and_close
  by_cases h : s.closed <;> simp [h]

lemma fail_and_close_of_closed (s : Session) (e : ECode) (h : s.closed = true) :
    fail_and_close s e = s := by
  simp [fail_and_close, h]

lemma sumSizes_append (q : List (List Nat)) (b : List Nat) :
    sumSizes (q ++ [b]) = sumSizes q + b.length := by
  simp [sumSizes]

lemma pending_inv_enqueue (cfg : ServerConfig) (s : Session) (buf : List Nat)
    (ih : s.closed = false → s.pendingBytes = sumSizes s.writeQueue)
    (h : (enqueue_write cfg s buf).closed = false) :
    (enqueue_write cfg s buf).pendingBytes
      = sumSizes (enqueue_write cfg s buf).writeQueue := by
  unfold enqueue_write at h ⊢
  by_cases hover : cfg.max_write_queue_bytes < s.pendingBytes + buf.length
  · simp only [hover, if_true] at h
    simp [fail_and_close_isClosed] at h
  · simp only [hover, if_false] at h ⊢
    simp only [sumSizes_append]
    rw [ih h]

lemma pending_inv_handle (cfg : ServerConfig) (s : Session) (body : List Nat)
    (ih : s.closed = false → s.pendingBytes = sumSizes s.writeQueue)
    (h : (handle_message cfg s body).closed = false) :
    (handle_message cfg s body).pendingBytes
      = sumSizes (handle_message cfg s body).writeQueue := by
  rcases Nat.lt_or_ge body.length 9 with hl | hl
  · rw [handle_message_short cfg s body hl] at h ⊢
    exact ih h
  · by_cases hty : body.headD 0 % 256 = MSG_HELLO
    · rw [handle_message_hello cfg s body hl hty] at h ⊢
      exact pending_inv_enqueue cfg s _ ih h
    · rw [handle_message_other cfg s body hl hty] at h ⊢
      exact pending_inv_enqueue cfg s _ ih h

lemma pending_inv_write_done (s : Session) (ok : Bool) (n : Nat)
    (hn : ok = true → n = (s.writeQueue.headD []).length)
    (ih : s.closed = false → s.pendingBytes = sumSizes s.writeQueue)
    (h : (write_done s ok n).closed = false) :
    (write_done s ok n).pendingBytes = sumSizes (write_done s ok n).writeQueue := by
  cases hsq : s.writeQueue with
  | nil => simp only [write_done, hsq] at h ⊢; exact (hsq ▸ ih h)
  | cons front rest =>
    cases ok with
    | false =>
      simp only [write_done, hsq, Bool.false_eq_true, if_false] at h
      simp [fail_and_close_isClosed] at h
    | true =>
      have hn2 : n = front.length := by simpa [hsq] using hn rfl
      simp only [write_done, hsq, if_true] at h ⊢
      have hp := ih (by simpa using h)
      rw [hsq] at hp
      simp only [sumSizes, List.map, List.sum_cons] at hp
      simp only [sumSizes, hn2, Nat.min_self]
      omega

/-- C8: for every `u32` value `v`, decoding the 4 big-endian bytes produced by
encoding `v` returns `v`, and likewise for every `u64` value through the
8-byte encoder/decoder: `decode_be (encode_be v) = v`. -/
theorem codec_roundtrip (v32 v64 : Nat) (h32 : v32 < 2 ^ 32) (h64 : v64 < 2 ^ 64) :
    read_u32be (write_u32be v32) = v32 ∧ read_u64be (write_u64be v64) = v64 :=
  ⟨read_u32be_write_u32be v32 h32, read_u64be_write_u64be v64 h64⟩

/-- C8 witness: the round trip evaluated at concrete values. -/
theorem codec_roundtrip_witness :
    read_u32be (write_u32be 0xDEADBEEF) = 0xDEADBEEF ∧
      read_u64be (write_u64be 0x1122334455667788) = 0x1122334455667788 :=
  codec_roundtrip 0xDEADBEEF 0x1122334455667788 (by norm_num) (by norm_num)

/-- C1: when the 4-byte length prefix decodes to `L`, a session that has not
closed rejects `L = 0` and `L > max_frame` by closing with the bad-length
protocol violation (`message_size`) and issuing no further read, while for
`0 < L ≤ max_frame` the frame is accepted: the state is untouched and the
next read is of exactly `L` body bytes. -/
theorem frame_length_validation (cfg : ServerConfig) (s : Session)
    (lenbuf : List Nat) (hs : s.closed = false) :
    ((read_u32be lenbuf = 0 ∨ cfg.max_frame < read_u32be lenbuf) →
      (read_len_done cfg s true lenbuf).1.closed = true ∧
      (read_len_done cfg s true lenbuf).1.closeCode = some ECode.messageSize ∧
      (read_len_done cfg s true lenbuf).2 = NextRead.halt) ∧
    (0 < read_u32be lenbuf ∧ read_u32be lenbuf ≤ cfg.max_frame →
      (read_len_done cfg s true lenbuf).1 = s ∧
      (read_len_done cfg s true lenbuf).2
        = NextRead.bodyRead (read_u32be lenbuf)) := by
  constructor
  · intro hbad
    simp only [read_len_done, if_true, if_pos hbad]
    exact ⟨fail_and_close_isClosed s ECode.messageSize, by simp [fail_and_close, hs], trivial⟩
  · rintro ⟨h1, h2⟩
    have hng : ¬ (read_u32be lenbuf = 0 ∨ cfg.max_frame < read_u32be lenbuf) := by
      push_neg
      omega
    simp [read_len_done, hng]

/-- C1 witness: with `max_frame = 1 MiB`, the prefix `[0,0,0,5]` (L = 5) is
accepted and exactly 5 body bytes are read next; the prefix `[0,0,0,0]`
(L = 0) closes the session with `message_size`. -/
theorem frame_length_validation_witness :
    ((read_len_done ⟨1, 1 <<< 20, 8 <<< 20, true⟩ initSession true [0, 0, 0, 5]).1
        = initSession ∧
      (read_len_done ⟨1, 1 <<< 20, 8 <<< 20, true⟩ initSession true [0, 0, 0, 5]).2
        = NextRead.bodyRead 5) ∧
    ((read_len_done ⟨1, 1 <<< 20, 8 <<< 20, true⟩ initSession true [0, 0, 0, 0]).1.closed
        = true ∧
      (read_len_done ⟨1, 1 <<< 20, 8 <<< 20, true⟩ initSession true [0, 0, 0, 0]).1.closeCode
        = some ECode.messageSize) := by
  constructor
  · have h := (frame_length_validation ⟨1, 1 <<< 20, 8 <<< 20, true⟩ initSession
        [0, 0, 0, 5] rfl).2 (by constructor <;> decide)
    have e5 : read_u32be [0, 0, 0, 5] = 5 := by decide
    exact ⟨h.1, by rw [h.2, e5]⟩
  · have h := (frame_length_validation ⟨1, 1 <<< 20, 8 <<< 20, true⟩ initSession
        [0, 0, 0, 0] rfl).1 (Or.inl (by decide))
    exact ⟨h.1, h.2.1⟩

/-- C2: a received body of at least 9 bytes whose first byte is `HELLO`
(0x01) makes the session enqueue a HELLO_ACK reply: the 8-byte big-endian
id is decoded from body bytes 1..8 and the body of the enqueued frame is exactly
10 bytes, `[0x81][8-byte echoed id][status 0]`; for id 42 the reply body is
`[0x81, 0,0,0,0,0,0,0,42, 0]`. -/
theorem hello_dispatch (cfg : ServerConfig) (s : Session) (body : List Nat)
    (h9 : 9 ≤ body.length) (hty : body.headD 0 % 256 = MSG_HELLO) :
    handle_message cfg s body
      = enqueue_write cfg s (send_hello_ack_buf (read_u64be (body.drop 1)) 0) ∧
    (send_hello_ack_buf (read_u64be (body.drop 1)) 0).drop 4
      = MSG_HELLO_ACK :: (write_u64be (read_u64be (body.drop 1)) ++ [0]) ∧
    ((send_hello_ack_buf (read_u64be (body.drop 1)) 0).drop 4).length = 10 ∧
    (send_hello_ack_buf 42 0).drop 4 = [0x81, 0, 0, 0, 0, 0, 0, 0, 42, 0] := by
  refine ⟨handle_message_hello cfg s body h9 hty, ?_, ?_, by decide⟩
  · simp [send_hello_ack_buf, write_u32be]
  · simp [send_hello_ack_buf, write_u32be, write_u64be]

/-- C2 witness: the claim applied to the HELLO body with id 42. -/
theorem hello_dispatch_witness :
    handle_message ⟨1, 1 <<< 20, 8 <<< 20, true⟩ initSession
        [1, 0, 0, 0, 0, 0, 0, 0, 42]
      = enqueue_write ⟨1, 1 <<< 20, 8 <<< 20, true⟩ initSession
          (send_hello_ack_buf 42 0) ∧
    (send_hello_ack_buf 42 0).drop 4 = [0x81, 0, 0, 0, 0, 0, 0, 0, 42, 0] := by
  have h := hello_dispatch ⟨1, 1 <<< 20, 8 <<< 20, true⟩ initSession
      [1, 0, 0, 0, 0, 0, 0, 0, 42] (by decide) (by decide)
  have e : read_u64be (([1, 0, 0, 0, 0, 0, 0, 0, 42] : List Nat).drop 1) = 42 := by
    decide
  refine ⟨?_, h.2.2.2⟩
  have h1 := h.1
  rw [e] at h1
  exact h1

/-- C3 counterexample: the claim says the session treats the TRAILING 8
bytes of the body as the id, but for the 10-byte body
`[0x02, 0,0,0,0,0,0,0,7, 0xFF]` the code echoes the id decoded from bytes
1..8 (= 7), whereas its trailing 8 bytes decode to 2047; the two candidate
replies differ, so the claim as stated is false at this input. -/
theorem unknown_type_trailing_id_counterexample :
    handle_message ⟨1, 1 <<< 20, 8 <<< 20, true⟩ initSession
        [2, 0, 0, 0, 0, 0, 0, 0, 7, 255]
      = enqueue_write ⟨1, 1 <<< 20, 8 <<< 20, true⟩ initSession
          (send_hello_ack_buf 7 1) ∧
    read_u64be (([2, 0, 0, 0, 0, 0, 0, 0, 7, 255] : List Nat).drop
        (([2, 0, 0, 0, 0, 0, 0, 0, 7, 255] : List Nat).length - 8)) = 2047 ∧
    send_hello_ack_buf 7 1 ≠ send_hello_ack_buf 2047 1 := by
  refine ⟨by decide, by decide, by decide⟩

/-- C3 amended: for a received body of at least 9 bytes whose first byte is
not `HELLO`, the session decodes the id from body bytes 1..8 (the 8 bytes
immediately after the type byte, which coincide with the trailing 8 bytes
only when the body is exactly 9 bytes) and enqueues a HELLO_ACK echoing it
with status 1; in particular the body `[0x02, <8-byte id 7>, <filler>]`
yields a HELLO_ACK echoing id 7 with status 1. -/
theorem unknown_type_ack (cfg : ServerConfig) (s : Session) (body : List Nat)
    (h9 : 9 ≤ body.length) (hty : ¬ body.headD 0 % 256 = MSG_HELLO) :
    handle_message cfg s body
      = enqueue_write cfg s (send_hello_ack_buf (read_u64be (body.drop 1)) 1) ∧
    handle_message cfg s [2, 0, 0, 0, 0, 0, 0, 0, 7, 0]
      = enqueue_write cfg s (send_hello_ack_buf 7 1) := by
  refine ⟨handle_message_other cfg s body h9 hty, ?_⟩
  have h := handle_message_other cfg s [2, 0, 0, 0, 0, 0, 0, 0, 7, 0]
      (by decide) (by decide)
  have e : read_u64be (([2, 0, 0, 0, 0, 0, 0, 0, 7, 0] : List Nat).drop 1) = 7 := by
    decide
  rw [e] at h
  exact h

/-- C3 amended witness: the claim applied to the concrete unknown-type body. -/
theorem unknown_type_ack_witness :
    handle_message ⟨1, 1 <<< 20, 8 <<< 20, true⟩ initSession
        [2, 0, 0, 0, 0, 0, 0, 0, 7, 0]
      = enqueue_write ⟨1, 1 <<< 20, 8 <<< 20, true⟩ initSession
          (send_hello_ack_buf 7 1) :=
  (unknown_type_ack ⟨1, 1 <<< 20, 8 <<< 20, true⟩ initSession
      [2, 0, 0, 0, 0, 0, 0, 0, 7, 0] (by decide) (by decide)).2

/-- C4: enqueuing a buffer whose size pushes the running total of queued
bytes strictly past `max_write_queue_bytes` closes the (not yet closed)
session with the write-queue-overflow error; when the new total is at most
the limit — equality included — the session stays open and the buffer is
appended to the queue. -/
theorem write_queue_backpressure (cfg : ServerConfig) (s : Session)
    (buf : List Nat) (hs : s.closed = false) :
    (cfg.max_write_queue_bytes < s.pendingBytes + buf.length →
      (enqueue_write cfg s buf).closed = true ∧
      (enqueue_write cfg s buf).closeCode = some ECode.noBufferSpace) ∧
    (s.pendingBytes + buf.length ≤ cfg.max_write_queue_bytes →
      (enqueue_write cfg s buf).closed = false ∧
      (enqueue_write cfg s buf).closeCode = s.closeCode ∧
      (enqueue_write cfg s buf).pendingBytes = s.pendingBytes + buf.length ∧
      (enqueue_write cfg s buf).writeQueue = s.writeQueue ++ [buf]) := by
  constructor
  · intro hover
    unfold enqueue_write
    rw [if_pos hover]
    exact ⟨fail_and_close_isClosed _ _, by simp [fail_and_close, hs]⟩
  · intro hle
    unfold enqueue_write
    rw [if_neg (by omega)]
    exact ⟨hs, rfl, rfl, rfl⟩

/-- C4 witness: with a 14-byte limit, enqueuing the 14-byte HELLO_ACK frame
reaches the limit exactly and does not close; enqueuing it again (total 28)
overflows and closes with `no_buffer_space`. -/
theorem write_queue_backpressure_witness :
    (enqueue_write ⟨1, 1 <<< 20, 14, true⟩ initSession
        (send_hello_ack_buf 42 0)).closed = false ∧
    (enqueue_write ⟨1, 1 <<< 20, 14, true⟩
        (enqueue_write ⟨1, 1 <<< 20, 14, true⟩ initSession (send_hello_ack_buf 42 0))
        (send_hello_ack_buf 42 0)).closed = true ∧
    (enqueue_write ⟨1, 1 <<< 20, 14, true⟩
        (enqueue_write ⟨1, 1 <<< 20, 14, true⟩ initSession (send_hello_ack_buf 42 0))
        (send_hello_ack_buf 42 0)).closeCode = some ECode.noBufferSpace := by
  have hfit := (write_queue_backpressure ⟨1, 1 <<< 20, 14, true⟩ initSession
      (send_hello_ack_buf 42 0) rfl).2 (by decide)
  have hover := (write_queue_backpressure ⟨1, 1 <<< 20, 14, true⟩
      (enqueue_write ⟨1, 1 <<< 20, 14, true⟩ initSession (send_hello_ack_buf 42 0))
      (send_hello_ack_buf 42 0) hfit.1).1 (by decide)
  exact ⟨hfit.1, hover.1, hover.2⟩

/-- C5: a received body shorter than 9 bytes — any type byte included — is
silently ignored: the state (queue, pending bytes, close flag, effects) is
returned unchanged, no close happens, and the session immediately awaits
the next length prefix; a subsequent well-formed HELLO from that state is
answered normally. -/
theorem short_body_silently_ignored (cfg : ServerConfig) (s : Session)
    (body hello : List Nat) (hshort : body.length < 9) (hs : s.closed = false)
    (hlen : 9 ≤ hello.length) (hty : hello.headD 0 % 256 = MSG_HELLO) :
    (body_done cfg s true body).1 = s ∧
    (body_done cfg s true body).2 = NextRead.lenRead ∧
    (body_done cfg s true body).1.closed = false ∧
    handle_message cfg (body_done cfg s true body).1 hello
      = enqueue_write cfg s (send_hello_ack_buf (read_u64be (hello.drop 1)) 0) := by
  have h1 : (body_done cfg s true body).1 = s := by
    simp [body_done, handle_message_short cfg s body hshort]
  refine ⟨h1, by simp [body_done], ?_, ?_⟩
  · rw [h1]
    exact hs
  · rw [h1]
    exact handle_message_hello cfg s hello hlen hty

/-- C5 witness: the 5-byte malformed HELLO `[1, 0, 0, 0, 42]` is ignored and
the session still answers a following well-formed HELLO with id 42. -/
theorem short_body_silently_ignored_witness :
    (body_done ⟨1, 1 <<< 20, 8 <<< 20, true⟩ initSession true [1, 0, 0, 0, 42]).1
      = initSession ∧
    (body_done ⟨1, 1 <<< 20, 8 <<< 20, true⟩ initSession true [1, 0, 0, 0, 42]).2
      = NextRead.lenRead ∧
    handle_message ⟨1, 1 <<< 20, 8 <<< 20, true⟩
        (body_done ⟨1, 1 <<< 20, 8 <<< 20, true⟩ initSession true [1, 0, 0, 0, 42]).1
        [1, 0, 0, 0, 0, 0, 0, 0, 42]
      = enqueue_write ⟨1, 1 <<< 20, 8 <<< 20, true⟩ initSession
          (send_hello_ack_buf 42 0) := by
  have h := short_body_silently_ignored ⟨1, 1 <<< 20, 8 <<< 20, true⟩ initSession
      [1, 0, 0, 0, 42] [1, 0, 0, 0, 0, 0, 0, 0, 42] (by decide) rfl (by decide) (by decide)
  have e : read_u64be (([1, 0, 0, 0, 0, 0, 0, 0, 42] : List Nat).drop 1) = 42 := by
    decide
  refine ⟨h.1, h.2.1, ?_⟩
  have h4 := h.2.2.2
  rw [e] at h4
  exact h4

/-! ### Completion-discipline invariants for the client machines -/

lemma conn_inv (st : ConnSt) (h : ConnReach st) :
    st.calls.length = (if st.doneFlag then 1 else 0) ∧
    (st.doneFlag = false → st.resolvePending = true ∨ st.connectPending = true) := by
  induction h with
  | init => simp [connInit]
  | timer st a hr hp ih =>
    rcases ih with ⟨ih1, ih2⟩
    by_cases hd : st.doneFlag <;> cases a <;> simp_all [connStep]
  | resolve st ok hr hp ih =>
    rcases ih with ⟨ih1, ih2⟩
    by_cases hd : st.doneFlag <;> cases ok <;> simp_all [connStep]
  | connect st ok hr hp ih =>
    rcases ih with ⟨ih1, ih2⟩
    by_cases hd : st.doneFlag <;> cases ok <;> simp_all [connStep]

lemma hs_inv (cid : Nat) (st : HsSt) (h : HsReach cid st) :
    st.calls.length = (if st.doneFlag then 1 else 0) ∧
    (st.doneFlag = false →
      st.writePending = true ∨ st.lenPending = true ∨ st.bodyPending = true) := by
  induction h with
  | init => simp [hsInit]
  | timer st a hr hp ih =>
    rcases ih with ⟨ih1, ih2⟩
    by_cases hd : st.doneFlag <;> cases a <;> simp_all [hsStep]
  | write st ok hr hp ih =>
    rcases ih with ⟨ih1, ih2⟩
    by_cases hd : st.doneFlag <;> cases ok <;> simp_all [hsStep]
  | len st ok lenbuf hr hp ih =>
    rcases ih with ⟨ih1, ih2⟩
    by_cases hd : st.doneFlag
    · cases ok <;> simp_all [hsStep]
    · cases ok with
      | false => simp_all [hsStep]
      | true =>
        have e1 : hsStep cid (HsEv.lenDone true lenbuf) st
            = (if read_u32be lenbuf < 1 + 8 + 1 ∨ (1 <<< 20 : Nat) < read_u32be lenbuf
               then { st with
                      lenPending := false
                      doneFlag := true
                      calls := st.calls ++ [HsResult.badLength] }
               else { st with
                      lenPending := false
                      bodyPending := true }) := by
          simp [hsStep, hd]
        rw [e1]
        by_cases hb : read_u32be lenbuf < 1 + 8 + 1 ∨ (1 <<< 20 : Nat) < read_u32be lenbuf
        · rw [if_pos hb]
          simp [ih1, hd]
        · rw [if_neg hb]
          simp [ih1, hd]
  | body st ok b hr hp ih =>
    rcases ih with ⟨ih1, ih2⟩
    by_cases hd : st.doneFlag <;> cases ok <;> simp_all [hsStep]

/-- C6: for every `async_connect` and every `async_handshake` call, the
handler fires at most once along any interleaving of its completion
callbacks (the running count of invocations is 1 exactly when the `done`
flag is set, so any completion landing after the first winner — a stale
success after a reported timeout included — is discarded), and once no
operation of the call is left outstanding the handler has fired exactly
once. -/
theorem handler_fires_exactly_once :
    (∀ st : ConnSt, ConnReach st →
      st.calls.length = (if st.doneFlag then 1 else 0) ∧
      (st.resolvePending = false → st.connectPending = false →
        st.calls.length = 1)) ∧
    (∀ (cid : Nat) (st : HsSt), HsReach cid st →
      st.calls.length = (if st.doneFlag then 1 else 0) ∧
      (st.writePending = false → st.lenPending = false → st.bodyPending = false →
        st.calls.length = 1)) := by
  constructor
  · intro st h
    rcases conn_inv st h with ⟨ih1, ih2⟩
    refine ⟨ih1, ?_⟩
    intro h1 h2
    by_cases hd : st.doneFlag
    · simpa [hd] using ih1
    · rcases ih2 (by simpa using hd) with hp | hp
      · rw [h1] at hp
        cases hp
      · rw [h2] at hp
        cases hp
  · intro cid st h
    rcases hs_inv cid st h with ⟨ih1, ih2⟩
    refine ⟨ih1, ?_⟩
    intro h1 h2 h3
    by_cases hd : st.doneFlag
    · simpa [hd] using ih1
    · rcases ih2 (by simpa using hd) with hp | hp | hp
      · rw [h1] at hp
        cases hp
      · rw [h2] at hp
        cases hp
      · rw [h3] at hp
        cases hp

/-- C6 witness: a completed connect (resolve then connect succeeded) and a
timed-out handshake each show exactly one handler invocation. -/
theorem handler_fires_exactly_once_witness :
    (connStep (ConnEv.connectDone true)
        (connStep (ConnEv.resolveDone true) connInit)).calls.length = 1 ∧
    (hsStep 42 (HsEv.timerFired false) hsInit).calls.length = 1 := by
  constructor
  · have h := (handler_fires_exactly_once.1 _
      (ConnReach.connect _ true (ConnReach.resolve _ true ConnReach.init rfl) rfl)).1
    rw [h]
    decide
  · have h := (handler_fires_exactly_once.2 42 _
      (HsReach.timer _ false HsReach.init rfl)).1
    rw [h]
    decide

/-- C9 counterexample: when the `async_connect` deadline fires while the
resolve is still in flight, the handler does receive `timed_out`, but the
timer lambda cancels/closes only `socket_` and never touches `resolver_`:
the in-flight resolve is not cancelled (`resolverCancelled` stays false and
the operation stays outstanding), and a further I/O callback — the late
resolve completion — still fires for this call afterwards (it is merely
discarded by the `done` flag).  This falsifies both "the in-flight resolve
or connect is cancelled/aborted" and "no further I/O callback fires". -/
theorem connect_timeout_counterexample :
    (connStep (ConnEv.timerFired false) connInit).calls = [ConnResult.timedOut] ∧
    (connStep (ConnEv.timerFired false) connInit).resolverCancelled = false ∧
    (connStep (ConnEv.timerFired false) connInit).resolvePending = true ∧
    ConnReach (connStep (ConnEv.resolveDone true)
      (connStep (ConnEv.timerFired false) connInit)) ∧
    (connStep (ConnEv.resolveDone true)
      (connStep (ConnEv.timerFired false) connInit)).calls
        = [ConnResult.timedOut] := by
  refine ⟨by decide, by decide, by decide, ?_, by decide⟩
  exact ConnReach.resolve _ true (ConnReach.timer _ false ConnReach.init rfl) rfl

/-- C9 amended: when the `async_connect` deadline timer fires before the
call completed, the handler is given the connect-timeout error, the socket
is cancelled/closed (which aborts an in-flight connect, though not an
in-flight resolve, which the code never cancels), and every later
completion callback leaves the handler-invocation list unchanged. -/
theorem connect_timeout_amended (st : ConnSt) (hd : st.doneFlag = false) :
    (connStep (ConnEv.timerFired false) st).calls
      = st.calls ++ [ConnResult.timedOut] ∧
    (connStep (ConnEv.timerFired false) st).socketCancelled = true ∧
    (connStep (ConnEv.timerFired false) st).resolverCancelled
      = st.resolverCancelled ∧
    ∀ ev : ConnEv, (connStep ev (connStep (ConnEv.timerFired false) st)).calls
      = (connStep (ConnEv.timerFired false) st).calls := by
  refine ⟨by simp [connStep, hd], by simp [connStep, hd], by simp [connStep, hd], ?_⟩
  intro ev
  generalize hst1 : connStep (ConnEv.timerFired false) st = st1
  have hd2 : st1.doneFlag = true := by
    rw [← hst1]
    simp [connStep, hd]
  cases ev with
  | timerFired a => cases a <;> simp [connStep, hd2]
  | resolveDone ok => simp [connStep, hd2]
  | connectDone ok => simp [connStep, hd2]

/-- C9 amended witness: the timeout firing right after `async_connect`
was issued. -/
theorem connect_timeout_amended_witness :
    (connStep (ConnEv.timerFired false) connInit).calls = [ConnResult.timedOut] ∧
    (connStep (ConnEv.timerFired false) connInit).socketCancelled = true ∧
    (connStep (ConnEv.resolveDone false)
      (connStep (ConnEv.timerFired false) connInit)).calls
        = (connStep (ConnEv.timerFired false) connInit).calls := by
  have h := connect_timeout_amended connInit rfl
  exact ⟨by simpa using h.1, h.2.1, h.2.2.2 (ConnEv.resolveDone false)⟩

/-- C7: closing is idempotent on both sides.  A second run of the server
close path returns the state unchanged — in particular its socket-effect log
gains no further shutdown/close — because `closed_.exchange(true)` already
reads true; and calling the client `close()` on an already-closed connection is a
no-op that surfaces no error. -/
theorem close_idempotent :
    (∀ (s : Session) (e e2 : ECode),
      fail_and_close (fail_and_close s e) e2 = fail_and_close s e) ∧
    (∀ c : ClientConn,
      client_close (client_close c).1 = client_close c ∧
      (client_close (client_close c).1).2 = none) := by
  constructor
  · intro s e e2
    exact fail_and_close_of_closed _ e2 (fail_and_close_isClosed s e)
  · intro c
    exact ⟨rfl, rfl⟩

/-- C10: in every reachable non-closed session state, the running byte count
`pending_bytes_` equals the total size of the frames in the write queue. -/
theorem pending_bytes_matches_queue (cfg : ServerConfig) (s : Session)
    (h : SReach cfg s) (hc : s.closed = false) :
    s.pendingBytes = sumSizes s.writeQueue := by
  revert hc
  induction h with
  | init => intro _; rfl
  | lenStep s ok lenbuf hr ih =>
    intro hc
    unfold read_len_done at hc ⊢
    cases ok with
    | false => simp [fail_and_close_isClosed] at hc
    | true =>
      by_cases hbad : read_u32be lenbuf = 0 ∨ cfg.max_frame < read_u32be lenbuf
      · simp only [if_true, if_pos hbad] at hc
        simp [fail_and_close_isClosed] at hc
      · simp only [if_true, if_neg hbad] at hc ⊢
        exact ih hc
  | bodyStep s ok body hr ih =>
    intro hc
    unfold body_done at hc ⊢
    cases ok with
    | false => simp [fail_and_close_isClosed] at hc
    | true =>
      simp only [if_true] at hc ⊢
      exact pending_inv_handle cfg s body ih hc
  | writeStep s ok n hq hn hr ih =>
    intro hc
    exact pending_inv_write_done s ok n hn ih hc
  | timerStep s hr ih =>
    intro hc
    simp [fail_and_close_isClosed] at hc

/-- C10 witness: the invariant at a concrete reachable state — after a HELLO
was dispatched, the queue holds the single 14-byte HELLO_ACK frame and
`pending_bytes_` is 14. -/
theorem pending_bytes_matches_queue_witness :
    (body_done ⟨1, 1 <<< 20, 8 <<< 20, true⟩ initSession true
        [1, 0, 0, 0, 0, 0, 0, 0, 42]).1.pendingBytes
      = sumSizes (body_done ⟨1, 1 <<< 20, 8 <<< 20, true⟩ initSession true
          [1, 0, 0, 0, 0, 0, 0, 0, 42]).1.writeQueue :=
  pending_bytes_matches_queue ⟨1, 1 <<< 20, 8 <<< 20, true⟩ _
    (SReach.bodyStep initSession true [1, 0, 0, 0, 0, 0, 0, 0, 42] SReach.init)
    (by decide)

end Swiftwire
